import Mathlib

/-!
Shallow embedding of the sentiment scoring core of the repository
(`SentimentAnalysisService` in `src/services/sentimentApi.ts`):
text normalization (`preprocessText`), the local heuristic estimator
(`extractTextFeatures`, `analyzeSentenceStructure`,
`getEnhancedMockSentiment`), the ensemble combiner
(`combineEnsembleResults`, `normalizeLabelToStandard`,
`normalizeSecondaryModelResults`), the dispatch logic of
`analyzeSentiment`, batch processing (`analyzeBatch`) and keyword
extraction (`extractKeywords`).

Strings are modelled as `List Char` (JavaScript strings, scanned
code-unit by code-unit); fractional scores are modelled as `ℚ`
(JavaScript numbers; all constants and weights in the source are small
decimals, so exact rationals track the intent of the arithmetic).
Scanning functions that consume more than one character per step are
written with an explicit fuel argument (initialized to the input
length, which is always sufficient since every step consumes at least
one character) so that they are structurally recursive and evaluate by
kernel reduction.
-/

set_option maxRecDepth 8000

/- The rational operations are `@[irreducible]` in the library, which
blocks `decide` on concrete score computations; the kernel is unaffected
by reducibility attributes, so restoring the default reducibility only
lets the elaborator evaluate the same terms the kernel re-checks. -/
set_option allowUnsafeReducibility true
attribute [semireducible] Rat.add Rat.mul Rat.inv Rat.sub Rat.ofScientific

abbrev Str := List Char

/-- Apostrophe character (used in the contraction table of the source). -/
def apos : Char := Char.ofNat 39

/-- JavaScript regex word character class `\w` = `[A-Za-z0-9_]`. -/
def isWordChar (c : Char) : Bool :=
  c.isAlphanum || c == '_'

/-- JavaScript regex whitespace class `\s` (the code points relevant here). -/
def jsWs (c : Char) : Bool :=
  c == ' ' || c == '\t' || c == '\n' || c == '\r' ||
  c == Char.ofNat 11 || c == Char.ofNat 12 || c == Char.ofNat 160 ||
  c == Char.ofNat 65279

/-- JavaScript `String.prototype.trim`: drop whitespace from both ends. -/
def trimJs (s : Str) : Str :=
  ((s.dropWhile jsWs).reverse.dropWhile jsWs).reverse

/-- If `pat` is a (case-sensitive) prefix of `s`, return the rest of `s`. -/
def stripCS : Str → Str → Option Str
  | [], s => some s
  | _ :: _, [] => none
  | p :: ps, c :: cs => if c = p then stripCS ps cs else none

/-- If `pat` (given in lower case) is a case-insensitive prefix of `s`,
return the rest of `s`. -/
def stripCI : Str → Str → Option Str
  | [], s => some s
  | _ :: _, [] => none
  | p :: ps, c :: cs => if c.toLower = p then stripCI ps cs else none

/-- Match one alternative of a `\b(w1|w2|...)\s+` regex at the head of `s`:
the word (case-insensitively) followed by at least one whitespace
character; the greedy `\s+` consumes the whole whitespace run.
Returns the unconsumed rest. -/
def matchAltWs (alt : Str) (s : Str) : Option Str :=
  match stripCI alt s with
  | none => none
  | some r =>
    match r with
    | [] => none
    | c :: cs => if jsWs c then some (cs.dropWhile jsWs) else none

/-- Try the alternatives of an alternation in order (JavaScript regex
alternation is ordered, first match wins). -/
def tryAlts : List Str → Str → Option Str
  | [], _ => none
  | alt :: alts, s =>
    match matchAltWs alt s with
    | some r => some r
    | none => tryAlts alts s

/-- One global-replace pass of a `\b(w1|w2|...)\s+` regex (flags `gi`),
substituting `repl` for each match.  `prevW` records whether the
previous character of the input was a word character (for `\b`).
Fueled recursion; each step consumes at least one input character. -/
def replaceSentinelGo (alts : List Str) (repl : Str) :
    Nat → Bool → Str → Str
  | 0, _, _ => []
  | _ + 1, _, [] => []
  | fuel + 1, prevW, c :: cs =>
    if prevW then c :: replaceSentinelGo alts repl fuel (isWordChar c) cs
    else
      match tryAlts alts (c :: cs) with
      | some r => repl ++ replaceSentinelGo alts repl fuel false r
      | none => c :: replaceSentinelGo alts repl fuel (isWordChar c) cs

def replaceSentinel (alts : List Str) (repl : Str) (s : Str) : Str :=
  replaceSentinelGo alts repl s.length false s

/-- Global case-insensitive literal replacement (a contraction-table
entry, regex flags `gi` with no metacharacters). -/
def replaceAllCIGo (pat repl : Str) : Nat → Str → Str
  | 0, _ => []
  | _ + 1, [] => []
  | fuel + 1, c :: cs =>
    match pat, stripCI pat (c :: cs) with
    | _ :: _, some r => repl ++ replaceAllCIGo pat repl fuel r
    | _, _ => c :: replaceAllCIGo pat repl fuel cs

def replaceAllCI (pat repl : Str) (s : Str) : Str :=
  replaceAllCIGo pat repl s.length s

/-- Try a list of case-sensitive literal alternatives in order at the
head of `s`; empty alternatives never occur in the source patterns. -/
def tryLits : List Str → Str → Option Str
  | [], _ => none
  | alt :: alts, s =>
    match alt, stripCS alt s with
    | _ :: _, some r => some r
    | _, _ => tryLits alts s

/-- Global replacement of an ordered alternation of literals
(emoji buckets and text emoticons, regex flag `g`). -/
def replaceLitsGo (alts : List Str) (repl : Str) : Nat → Str → Str
  | 0, _ => []
  | _ + 1, [] => []
  | fuel + 1, c :: cs =>
    match tryLits alts (c :: cs) with
    | some r => repl ++ replaceLitsGo alts repl fuel r
    | none => c :: replaceLitsGo alts repl fuel cs

def replaceLits (alts : List Str) (repl : Str) (s : Str) : Str :=
  replaceLitsGo alts repl s.length s

/-- Global replacement of runs of a repeated character with length at
least `minRun` (the `[!]{2,}`, `[?]{2,}`, `[.]{3,}` regexes). -/
def replaceRunGo (ch : Char) (minRun : Nat) (repl : Str) : Nat → Str → Str
  | 0, _ => []
  | _ + 1, [] => []
  | fuel + 1, c :: cs =>
    if c = ch then
      let run := 1 + (cs.takeWhile (fun d => d = ch)).length
      let rest := cs.dropWhile (fun d => d = ch)
      if minRun ≤ run then repl ++ replaceRunGo ch minRun repl fuel rest
      else List.replicate run ch ++ replaceRunGo ch minRun repl fuel rest
    else c :: replaceRunGo ch minRun repl fuel cs

def replaceRun (ch : Char) (minRun : Nat) (repl : Str) (s : Str) : Str :=
  replaceRunGo ch minRun repl s.length s

/-- Negation words of the source regex, in alternation order. -/
def negationWords : List Str :=
  ["not", "no", "never", "nothing", "nowhere", "nobody", "none",
   "neither", "nor"].map String.data

/-- Intensifier words of the source regex, in alternation order. -/
def intensifierWords : List Str :=
  ["very", "extremely", "incredibly", "absolutely", "totally",
   "completely"].map String.data

/-- Diminisher words of the source regex, in alternation order. -/
def diminisherWords : List Str :=
  ["slightly", "somewhat", "rather", "quite", "fairly", "pretty"].map
    String.data

/-- Contraction table in source insertion order (patterns and
replacements; the patterns containing an apostrophe are spelled with
`apos`). -/
def contractionTable : List (Str × Str) :=
  [(['w', 'o', 'n', apos, 't'], "will not".data),
   (['c', 'a', 'n', apos, 't'], "cannot".data),
   (['n', apos, 't'], " not".data),
   ([apos, 'r', 'e'], " are".data),
   ([apos, 'v', 'e'], " have".data),
   ([apos, 'l', 'l'], " will".data),
   ([apos, 'd'], " would".data),
   ([apos, 'm'], " am".data),
   (['i', 't', apos, 's'], "it is".data),
   (['t', 'h', 'a', 't', apos, 's'], "that is".data)]

/-- Emoji buckets of the source, in object insertion order. -/
def emojiTable : List (List Str × Str) :=
  [((["😊", "😀", "😃", "😄", "😁", "🙂", "😌", "😍", "🥰", "😘",
      "🤗"].map String.data), " POSITIVE_EMOJI ".data),
   ((["😢", "😭", "😞", "😔", "😟", "😕", "🙁", "☹️", "😰",
      "😨"].map String.data), " NEGATIVE_EMOJI ".data),
   ((["😐", "😑", "🤔", "😶", "🙄", "😏"].map String.data),
    " NEUTRAL_EMOJI ".data),
   ((["😡", "😠", "🤬", "😤", "💢"].map String.data),
    " ANGER_EMOJI ".data),
   ((["❤️", "💕", "💖", "💗", "💝", "🧡", "💛", "💚", "💙",
      "💜"].map String.data), " LOVE_EMOJI ".data)]

/-- Positive text emoticons, in alternation order. -/
def positiveEmoticons : List Str :=
  [":)", ":-)", ":]", ":D", ":-D", "=)", "=D"].map String.data

/-- Negative text emoticons, in alternation order. -/
def negativeEmoticons : List Str :=
  [":(", ":-(", ":[", "=(", "D:"].map String.data

/-- Neutral text emoticons, in alternation order. -/
def neutralEmoticons : List Str :=
  [":|", ":-|", "=|"].map String.data

/-- The normalizer `preprocessText` of the source: trim, negation /
intensifier / diminisher sentinels, contraction expansion, punctuation
runs, emoji buckets, text emoticons — each pass rewriting the result of
the previous one. -/
def preprocessText (text : Str) : Str :=
  let p := trimJs text
  let p := replaceSentinel negationWords "NOT_".data p
  let p := replaceSentinel intensifierWords "INTENSIFIER_".data p
  let p := replaceSentinel diminisherWords "DIMINISHER_".data p
  let p := contractionTable.foldl
    (fun s entry => replaceAllCI entry.1 entry.2 s) p
  let p := replaceRun '!' 2 " EXCITEMENT ".data p
  let p := replaceRun '?' 2 " CONFUSION ".data p
  let p := replaceRun '.' 3 " PAUSE ".data p
  let p := emojiTable.foldl
    (fun s entry => replaceLits entry.1 entry.2 s) p
  let p := replaceLits positiveEmoticons " POSITIVE_EMOTICON ".data p
  let p := replaceLits negativeEmoticons " NEGATIVE_EMOTICON ".data p
  let p := replaceLits neutralEmoticons " NEUTRAL_EMOTICON ".data p
  p

/-- One `(label, score)` entry of a classifier response
(the `ApiResponse` shape of the source). -/
structure ApiResponse where
  label : Str
  score : ℚ
deriving DecidableEq, Repr

/-- Descending-score order used by every `.sort((a, b) => b.score - a.score)`
in the source; `List.insertionSort` with this relation is the stable
descending sort that JavaScript `Array.prototype.sort` performs. -/
def scoreGe (a b : ApiResponse) : Prop := b.score ≤ a.score

instance : DecidableRel scoreGe := fun a b =>
  inferInstanceAs (Decidable (b.score ≤ a.score))

instance : IsTotal ApiResponse scoreGe :=
  ⟨fun a b => le_total b.score a.score⟩

instance : IsTrans ApiResponse scoreGe :=
  ⟨fun _ _ _ hab hbc => le_trans hbc hab⟩

/-- Substring test, JavaScript `String.prototype.includes` and the
`.test` of a regex that is a plain literal. -/
def containsSub (pat : Str) : Str → Bool
  | [] => pat.isEmpty
  | c :: cs => (stripCS pat (c :: cs)).isSome || containsSub pat cs

/-- Count the matches of a `\bword\b` regex (flag `g`) in `s`: an
occurrence of the word with a non-word character (or an edge) on both
sides; scanning resumes after each match.  `prevW` records whether the
previous input character was a word character. -/
def countWordBGo (a : Char) (w : Str) : Nat → Bool → Str → Nat
  | 0, _, _ => 0
  | _ + 1, _, [] => 0
  | fuel + 1, prevW, c :: cs =>
    match stripCS (a :: w) (c :: cs) with
    | some r =>
      if !prevW && (match r with | [] => true | d :: _ => !isWordChar d) then
        1 + countWordBGo a w fuel true r
      else countWordBGo a w fuel (isWordChar c) cs
    | none => countWordBGo a w fuel (isWordChar c) cs

def countWordB (w s : Str) : Nat :=
  match w with
  | [] => 0
  | a :: w => countWordBGo a w s.length false s

/-- Positive sentiment word list of `extractTextFeatures`. -/
def positiveWords : List Str :=
  ["excellent", "amazing", "wonderful", "fantastic", "perfect",
   "outstanding", "brilliant", "superb", "magnificent", "delightful",
   "awesome", "great", "good", "love", "like", "enjoy", "happy",
   "pleased", "satisfied", "impressive", "remarkable", "exceptional",
   "marvelous", "terrific"].map String.data

/-- Negative sentiment word list of `extractTextFeatures`. -/
def negativeWords : List Str :=
  ["terrible", "awful", "horrible", "disgusting", "disappointing",
   "pathetic", "atrocious", "dreadful", "appalling", "abysmal", "bad",
   "hate", "dislike", "annoying", "frustrating", "useless", "worthless",
   "poor", "worst", "unacceptable", "inadequate", "inferior",
   "defective", "faulty"].map String.data

/-- Neutral word list of `extractTextFeatures`. -/
def neutralWords : List Str :=
  ["okay", "average", "normal", "standard", "typical", "regular",
   "ordinary", "common", "usual", "basic", "moderate", "fair"].map
    String.data

/-- Sentence separator class `[.!?]` of the sentence-splitting regex. -/
def isSentSep (c : Char) : Bool := c == '.' || c == '!' || c == '?'

/-- Split on runs of sentence separators (`split(/[.!?]+/)`); empty
segments produced by JavaScript `split` at the edges are dropped here,
which is equivalent because the caller immediately filters out segments
that are empty after trimming. -/
def splitSentencesGo : Nat → Str → List Str
  | 0, _ => []
  | _ + 1, [] => []
  | fuel + 1, c :: cs =>
    if isSentSep c then splitSentencesGo fuel cs
    else
      (c :: cs.takeWhile (fun d => !isSentSep d)) ::
        splitSentencesGo fuel (cs.dropWhile (fun d => !isSentSep d))

def splitSentences (s : Str) : List Str :=
  splitSentencesGo s.length s

/-- The `analyzeSentenceStructure` helper: comparative structures,
conditional cues and question marks, each adding a fixed weight.
Returns `(positive, negative, neutral)`. -/
def analyzeSentenceStructure (sentence : Str) : ℚ × ℚ × ℚ :=
  let comp :=
    if containsSub "better than".data sentence ||
        containsSub "worse than".data sentence then
      ((if containsSub "better than".data sentence then 2/10 else 0),
       (if containsSub "worse than".data sentence then 2/10 else 0))
    else (0, 0)
  let neu :=
    (if containsSub "if".data sentence ||
        containsSub "would".data sentence then 1/10 else 0) +
    (if containsSub "?".data sentence then 1/10 else 0)
  (comp.1, comp.2, neu)

/-- The ephemeral feature record computed by `extractTextFeatures`. -/
structure TextFeatures where
  positiveScore : ℚ
  negativeScore : ℚ
  neutralScore : ℚ
  hasNegation : Bool
  hasIntensifier : Bool
  hasDiminisher : Bool
deriving DecidableEq, Repr

/-- Word-boundary count contributions of a word list:
`score += matches.length * weight` for each word of the list
(a null match result contributes nothing, exactly like a zero count). -/
def wordListScore (ws : List Str) (t : Str) (weight init : ℚ) : ℚ :=
  ws.foldl (fun acc w => acc + (countWordB w t : ℚ) * weight) init

/-- The running `(positive, negative, neutral)` scores of
`extractTextFeatures` up to and including the emoji/emoticon and
excitement bonuses: word-boundary counts over the lower-cased original
text (0.4 per sentiment word, 0.3 per neutral word on a 0.3 neutral
base), then the special-indicator bonuses driven by the lower-cased
processed text. -/
def baseScores (processedText originalText : Str) : ℚ × ℚ × ℚ :=
  let lowerText := originalText.map Char.toLower
  let lowerProcessed := processedText.map Char.toLower
  let positiveScore := wordListScore positiveWords lowerText (4/10) 0
  let negativeScore := wordListScore negativeWords lowerText (4/10) 0
  let neutralScore := wordListScore neutralWords lowerText (3/10) (3/10)
  let hasPositiveEmoji := containsSub "POSITIVE_EMOJI".data lowerProcessed ||
    containsSub "LOVE_EMOJI".data lowerProcessed ||
    containsSub "POSITIVE_EMOTICON".data lowerProcessed
  let hasNegativeEmoji := containsSub "NEGATIVE_EMOJI".data lowerProcessed ||
    containsSub "ANGER_EMOJI".data lowerProcessed ||
    containsSub "NEGATIVE_EMOTICON".data lowerProcessed
  let hasExcitement := containsSub "EXCITEMENT".data lowerProcessed
  let positiveScore := if hasPositiveEmoji then positiveScore + 5/10
    else positiveScore
  let negativeScore := if hasNegativeEmoji then negativeScore + 5/10
    else negativeScore
  if hasExcitement then
    if negativeScore < positiveScore then
      (positiveScore + 3/10, negativeScore, neutralScore)
    else (positiveScore, negativeScore + 3/10, neutralScore)
  else (positiveScore, negativeScore, neutralScore)

/-- One step of the per-sentence accumulation of `extractTextFeatures`. -/
def addSentence (acc : ℚ × ℚ × ℚ) (s : Str) : ℚ × ℚ × ℚ :=
  (acc.1 + (analyzeSentenceStructure s).1,
   acc.2.1 + (analyzeSentenceStructure s).2.1,
   acc.2.2 + (analyzeSentenceStructure s).2.2)

/-- The `extractTextFeatures` function: the running scores of
`baseScores`, with per-sentence structure scores added for
multi-sentence input, and the sentinel flags tested over the
lower-cased processed text. -/
def extractTextFeatures (processedText originalText : Str) : TextFeatures :=
  let lowerProcessed := processedText.map Char.toLower
  let base := baseScores processedText originalText
  let sentences := (splitSentences originalText).filter
    (fun s => 0 < (trimJs s).length)
  let summed :=
    if 1 < sentences.length then sentences.foldl addSentence base else base
  { positiveScore := summed.1
    negativeScore := summed.2.1
    neutralScore := summed.2.2
    hasNegation := containsSub "NOT_".data lowerProcessed
    hasIntensifier := containsSub "INTENSIFIER_".data lowerProcessed
    hasDiminisher := containsSub "DIMINISHER_".data lowerProcessed }

/-- The three context adjustments applied by `getEnhancedMockSentiment`
in source order: negation swap, intensifier amplification of the
strictly larger polarity (ties amplify negative), diminisher damping.
Returns the adjusted `(positive, negative, neutral)`. -/
def mockAdjusted (processedText originalText : Str) : ℚ × ℚ × ℚ :=
  let f := extractTextFeatures processedText originalText
  let pn : ℚ × ℚ :=
    if f.hasNegation then (f.negativeScore, f.positiveScore)
    else (f.positiveScore, f.negativeScore)
  let pn : ℚ × ℚ :=
    if f.hasIntensifier then
      if pn.2 < pn.1 then (pn.1 * (13/10), pn.2) else (pn.1, pn.2 * (13/10))
    else pn
  if f.hasDiminisher then
    (pn.1 * (8/10), pn.2 * (8/10), f.neutralScore * (12/10))
  else (pn.1, pn.2, f.neutralScore)

/-- The local estimator `getEnhancedMockSentiment`: adjusted feature
scores normalized by their sum, sorted descending; a fixed default
distribution when the sum is zero. -/
def getEnhancedMockSentiment (processedText originalText : Str) :
    List ApiResponse :=
  let s := mockAdjusted processedText originalText
  let total := s.1 + s.2.1 + s.2.2
  if total = 0 then
    [⟨"LABEL_1".data, 6/10⟩, ⟨"LABEL_2".data, 25/100⟩,
     ⟨"LABEL_0".data, 15/100⟩]
  else
    List.insertionSort scoreGe
      [⟨"LABEL_2".data, s.1 / total⟩, ⟨"LABEL_0".data, s.2.1 / total⟩,
       ⟨"LABEL_1".data, s.2.2 / total⟩]

/-- Label reconciliation table of `normalizeLabelToStandard`; keys not
in the table map to `none` (JavaScript `|| null`). -/
def normalizeLabelToStandard (label : Str) : Option Str :=
  List.lookup label
    [("LABEL_0".data, "LABEL_0".data), ("LABEL_1".data, "LABEL_1".data),
     ("LABEL_2".data, "LABEL_2".data), ("negative".data, "LABEL_0".data),
     ("neutral".data, "LABEL_1".data), ("positive".data, "LABEL_2".data),
     ("1 star".data, "LABEL_0".data), ("2 stars".data, "LABEL_0".data),
     ("3 stars".data, "LABEL_1".data), ("4 stars".data, "LABEL_2".data),
     ("5 stars".data, "LABEL_2".data)]

/-- Accumulate one classifier entry into the `(LABEL_0, LABEL_1,
LABEL_2)` score triple with weight `w`
(the `combinedScores[normalizedLabel] += result.score * w` statement). -/
def addWeighted (w : ℚ) (acc : ℚ × ℚ × ℚ) (r : ApiResponse) : ℚ × ℚ × ℚ :=
  match normalizeLabelToStandard r.label with
  | some lbl =>
    if lbl = "LABEL_0".data then (acc.1 + r.score * w, acc.2.1, acc.2.2)
    else if lbl = "LABEL_1".data then (acc.1, acc.2.1 + r.score * w, acc.2.2)
    else if lbl = "LABEL_2".data then (acc.1, acc.2.1, acc.2.2 + r.score * w)
    else acc
  | none => acc

/-- The ensemble combiner `combineEnsembleResults`: primary entries
weighted 0.7, secondary entries weighted 0.3, accumulated per canonical
label and sorted descending by score. -/
def combineEnsembleResults (primary secondary : List ApiResponse) :
    List ApiResponse :=
  let acc := primary.foldl (addWeighted (7/10)) (0, 0, 0)
  let acc := secondary.foldl (addWeighted (3/10)) acc
  List.insertionSort scoreGe
    [⟨"LABEL_0".data, acc.1⟩, ⟨"LABEL_1".data, acc.2.1⟩,
     ⟨"LABEL_2".data, acc.2.2⟩]

/-- The `normalizeSecondaryModelResults` pass: re-map star labels to
canonical labels (keeping the original label when unmapped) and keep
only entries whose label starts with `LABEL_`. -/
def normalizeSecondaryModelResults (results : List ApiResponse) :
    List ApiResponse :=
  (results.map (fun r =>
    ApiResponse.mk ((normalizeLabelToStandard r.label).getD r.label) r.score)
    ).filter (fun r => (stripCS "LABEL_".data r.label).isSome)

/-- The dummy token that the service is constructed with; the guard
`!this.apiToken || this.apiToken === 'hf_dummy_token'` routes to the
local estimator. -/
def dummyToken : Str := "hf_dummy_token".data

/-- The dispatch logic of `analyzeSentiment`, with the two remote
outcomes supplied as parameters (an empty list is a failed call, the
value the gateway returns on any transport error).  `useEnsemble`
mirrors the service flag (always `true` in the source). -/
def analyzeSentimentModel (useEnsemble : Bool) (apiToken : Str)
    (primary secondary : List ApiResponse) (text : Str) :
    List ApiResponse :=
  let processedText := preprocessText text
  if apiToken.isEmpty || apiToken == dummyToken then
    getEnhancedMockSentiment processedText text
  else if useEnsemble then
    if primary ≠ [] ∧ secondary ≠ [] then
      combineEnsembleResults primary secondary
    else if primary ≠ [] then primary
    else if secondary ≠ [] then normalizeSecondaryModelResults secondary
    else getEnhancedMockSentiment processedText text
  else
    if primary ≠ [] then primary
    else getEnhancedMockSentiment processedText text

/-- The batch loop of `analyzeBatch`: fixed-size groups of 3, each
group mapped through the analysis and appended in order (`Promise.all`
preserves order; the inter-group delay has no effect on values). -/
def analyzeBatchGo (analyze : Str → List ApiResponse) :
    Nat → List Str → List (List ApiResponse)
  | 0, _ => []
  | _ + 1, [] => []
  | fuel + 1, texts@(_ :: _) =>
    (texts.take 3).map analyze ++ analyzeBatchGo analyze fuel (texts.drop 3)

def analyzeBatch (analyze : Str → List ApiResponse) (texts : List Str) :
    List (List ApiResponse) :=
  analyzeBatchGo analyze texts.length texts

/-- Split into maximal runs of word characters, the JavaScript
`split(/\W+/)`; empty segments that `split` can produce at the edges
are dropped here, which is equivalent because the caller immediately
filters out tokens of length at most 2. -/
def splitWordRunsGo : Nat → Str → List Str
  | 0, _ => []
  | _ + 1, [] => []
  | fuel + 1, c :: cs =>
    if isWordChar c then
      (c :: cs.takeWhile isWordChar) ::
        splitWordRunsGo fuel (cs.dropWhile isWordChar)
    else splitWordRunsGo fuel cs

def splitWordRuns (s : Str) : List Str :=
  splitWordRunsGo s.length s

/-- Stop-word set of `extractKeywords` (a JavaScript `Set`, insertion
order irrelevant for membership). -/
def stopWords : List Str :=
  ["the", "a", "an", "and", "or", "but", "in", "on", "at", "to", "for",
   "of", "with", "by", "this", "that", "these", "those", "i", "you",
   "he", "she", "it", "we", "they", "am", "is", "are", "was", "were",
   "be", "been", "being", "have", "has", "had", "do", "does", "did",
   "will", "would", "could", "should", "may", "might", "must", "can",
   "shall", "not_", "intensifier_", "diminisher_"].map String.data

/-- The `positive` entry of the `sentimentKeywords` table. -/
def positiveKeywordList : List Str :=
  ["excellent", "amazing", "wonderful", "fantastic", "perfect",
   "outstanding", "brilliant", "superb", "magnificent", "delightful",
   "awesome", "great", "good", "love", "like", "enjoy", "happy",
   "pleased", "satisfied", "impressive", "remarkable", "exceptional",
   "marvelous", "terrific", "positive_emoji", "love_emoji",
   "positive_emoticon"].map String.data

/-- The `negative` entry of the `sentimentKeywords` table. -/
def negativeKeywordList : List Str :=
  ["terrible", "awful", "horrible", "disgusting", "disappointing",
   "pathetic", "atrocious", "dreadful", "appalling", "abysmal", "bad",
   "hate", "dislike", "annoying", "frustrating", "useless", "worthless",
   "poor", "worst", "unacceptable", "inadequate", "inferior",
   "defective", "faulty", "negative_emoji", "anger_emoji",
   "negative_emoticon"].map String.data

/-- The `neutral` entry of the `sentimentKeywords` table. -/
def neutralKeywordList : List Str :=
  ["okay", "average", "normal", "standard", "typical", "regular",
   "ordinary", "common", "usual", "basic", "moderate", "fair",
   "neutral_emoji", "neutral_emoticon"].map String.data

/-- The `sentimentKeywords[sentiment]` lookup with optional chaining:
an unknown sentiment key yields no list, so the membership test is
false. -/
def sentimentListFor (sentiment : Str) : List Str :=
  if sentiment = "positive".data then positiveKeywordList
  else if sentiment = "negative".data then negativeKeywordList
  else if sentiment = "neutral".data then neutralKeywordList
  else []

/-- Context window test of `extractKeywords`: the tokens within two
positions of the first occurrence of `w` (JavaScript `indexOf` then
`slice(max(0, i-2), i+3)`), checked against all three sentiment lists. -/
def hasSentimentContext (words : List Str) (w : Str) : Bool :=
  let wordIndex := words.indexOf w
  let start := wordIndex - 2
  let context := (words.drop start).take (wordIndex + 3 - start)
  context.any (fun cw =>
    positiveKeywordList.contains cw || negativeKeywordList.contains cw ||
    neutralKeywordList.contains cw)

/-- The relevance filter of `extractKeywords`: drop stop words, keep
label-list words, words longer than 4, and words in sentiment context. -/
def isRelevantWord (sentiment : Str) (words : List Str) (w : Str) : Bool :=
  if stopWords.contains w then false
  else if (sentimentListFor sentiment).contains w then true
  else if 4 < w.length then true
  else hasSentimentContext words w

/-- Token list of `extractKeywords`: lower-cased preprocessed text,
split on non-word runs, tokens of length at most 2 dropped. -/
def keywordTokens (text : Str) : List Str :=
  (splitWordRuns ((preprocessText text).map Char.toLower)).filter
    (fun w => 2 < w.length)

/-- The `relevantWords` list of `extractKeywords`. -/
def relevantWords (text sentiment : Str) : List Str :=
  let words := keywordTokens text
  words.filter (isRelevantWord sentiment words)

/-- First-occurrence deduplication, the JavaScript
`[...new Set(list)]`. -/
def dedupFirstGo : Nat → List Str → List Str
  | 0, _ => []
  | _ + 1, [] => []
  | fuel + 1, w :: ws =>
    w :: dedupFirstGo fuel (ws.filter (fun v => !(v == w)))

def dedupFirst (l : List Str) : List Str :=
  dedupFirstGo l.length l

/-- Relevance score of one keyword: +3 for label-list membership, plus
raw frequency in the token list, plus `min(length/10, 1)`. -/
def keywordScore (sentiment : Str) (words : List Str) (kw : Str) : ℚ :=
  (if (sentimentListFor sentiment).contains kw then 3 else 0) +
    (words.count kw : ℚ) + min ((kw.length : ℚ) / 10) 1

/-- Descending-score order on scored keywords. -/
def kwScoreGe (a b : Str × ℚ) : Prop := b.2 ≤ a.2

instance : DecidableRel kwScoreGe := fun a b =>
  inferInstanceAs (Decidable (b.2 ≤ a.2))

instance : IsTotal (Str × ℚ) kwScoreGe :=
  ⟨fun a b => le_total b.2 a.2⟩

instance : IsTrans (Str × ℚ) kwScoreGe :=
  ⟨fun _ _ _ hab hbc => le_trans hbc hab⟩

/-- The `extractKeywords` routine: relevance-filtered tokens,
deduplicated, scored, sorted descending (stable), truncated to the top
6, and finally purged of tokens containing an underscore. -/
def extractKeywords (text sentiment : Str) : List Str :=
  let words := keywordTokens text
  let uniqueKeywords := dedupFirst (relevantWords text sentiment)
  let keywordScores := uniqueKeywords.map
    (fun kw => (kw, keywordScore sentiment words kw))
  (((List.insertionSort kwScoreGe keywordScores).take 6).map Prod.fst).filter
    (fun kw => !containsSub "_".data kw)

/-! Helper lemmas about the embedded definitions. -/

lemma wordListScore_nonneg (t : Str) (weight : ℚ) (hw : 0 ≤ weight) :
    ∀ (ws : List Str) (init : ℚ), 0 ≤ init → 0 ≤ wordListScore ws t weight init
  | [], _, h => h
  | w :: ws, init, h => by
    have : 0 ≤ init + (countWordB w t : ℚ) * weight :=
      add_nonneg h (mul_nonneg (Nat.cast_nonneg _) hw)
    simpa [wordListScore, List.foldl_cons] using
      wordListScore_nonneg t weight hw ws _ this

lemma sentenceStructure_nonneg (s : Str) :
    0 ≤ (analyzeSentenceStructure s).1 ∧
    0 ≤ (analyzeSentenceStructure s).2.1 ∧
    0 ≤ (analyzeSentenceStructure s).2.2 := by
  unfold analyzeSentenceStructure
  dsimp only
  split_ifs <;> norm_num

lemma foldl_addSentence_le :
    ∀ (l : List Str) (init : ℚ × ℚ × ℚ),
      init.1 ≤ (l.foldl addSentence init).1 ∧
      init.2.1 ≤ (l.foldl addSentence init).2.1 ∧
      init.2.2 ≤ (l.foldl addSentence init).2.2
  | [], _ => ⟨le_refl _, le_refl _, le_refl _⟩
  | s :: l, init => by
    have hs := sentenceStructure_nonneg s
    have ih := foldl_addSentence_le l (addSentence init s)
    refine ⟨le_trans ?_ ih.1, le_trans ?_ ih.2.1, le_trans ?_ ih.2.2⟩ <;>
      simp only [addSentence] <;> linarith [hs.1, hs.2.1, hs.2.2]

lemma baseScores_bounds (p o : Str) :
    0 ≤ (baseScores p o).1 ∧ 0 ≤ (baseScores p o).2.1 ∧
    3/10 ≤ (baseScores p o).2.2 := by
  have hp := wordListScore_nonneg (o.map Char.toLower) (4/10) (by norm_num)
    positiveWords 0 le_rfl
  have hn := wordListScore_nonneg (o.map Char.toLower) (4/10) (by norm_num)
    negativeWords 0 le_rfl
  have hu : (3:ℚ)/10 ≤ wordListScore neutralWords (o.map Char.toLower)
      (3/10) (3/10) := by
    have base : ∀ (ws : List Str) (init : ℚ),
        init ≤ wordListScore ws (o.map Char.toLower) (3/10) init := by
      intro ws
      induction ws with
      | nil => intro init; exact le_refl _
      | cons w ws ih =>
        intro init
        have step : init ≤ init + (countWordB w (o.map Char.toLower) : ℚ) *
            (3/10) := by
          have : (0:ℚ) ≤ (countWordB w (o.map Char.toLower) : ℚ) * (3/10) :=
            mul_nonneg (Nat.cast_nonneg _) (by norm_num)
          linarith
        calc init ≤ init + (countWordB w (o.map Char.toLower) : ℚ) * (3/10) :=
              step
          _ ≤ _ := by
              simpa [wordListScore, List.foldl_cons] using ih _
    exact base neutralWords (3/10)
  unfold baseScores
  dsimp only
  split_ifs <;> exact ⟨by linarith, by linarith, by linarith⟩

lemma features_bounds (p o : Str) :
    0 ≤ (extractTextFeatures p o).positiveScore ∧
    0 ≤ (extractTextFeatures p o).negativeScore ∧
    3/10 ≤ (extractTextFeatures p o).neutralScore := by
  have hb := baseScores_bounds p o
  unfold extractTextFeatures
  dsimp only
  split_ifs with h
  · have hf := foldl_addSentence_le
      (((splitSentences o).filter (fun s => 0 < (trimJs s).length)))
      (baseScores p o)
    exact ⟨le_trans hb.1 hf.1, le_trans hb.2.1 hf.2.1,
      le_trans hb.2.2 hf.2.2⟩
  · exact hb

lemma mockAdjusted_bounds (p o : Str) :
    0 ≤ (mockAdjusted p o).1 ∧ 0 ≤ (mockAdjusted p o).2.1 ∧
    3/10 ≤ (mockAdjusted p o).2.2 := by
  have hf := features_bounds p o
  unfold mockAdjusted
  dsimp only
  split_ifs <;>
    refine ⟨?_, ?_, ?_⟩ <;> dsimp only <;> nlinarith [hf.1, hf.2.1, hf.2.2]

lemma mockAdjusted_total_pos (p o : Str) :
    0 < (mockAdjusted p o).1 + (mockAdjusted p o).2.1 +
      (mockAdjusted p o).2.2 := by
  have h := mockAdjusted_bounds p o
  linarith [h.1, h.2.1, h.2.2]

/-- The local estimator always takes the normalizing branch
(the zero-total default branch is dead code). -/
lemma mock_eq_normalized (p o : Str) :
    getEnhancedMockSentiment p o =
      List.insertionSort scoreGe
        [⟨"LABEL_2".data, (mockAdjusted p o).1 /
            ((mockAdjusted p o).1 + (mockAdjusted p o).2.1 +
              (mockAdjusted p o).2.2)⟩,
         ⟨"LABEL_0".data, (mockAdjusted p o).2.1 /
            ((mockAdjusted p o).1 + (mockAdjusted p o).2.1 +
              (mockAdjusted p o).2.2)⟩,
         ⟨"LABEL_1".data, (mockAdjusted p o).2.2 /
            ((mockAdjusted p o).1 + (mockAdjusted p o).2.1 +
              (mockAdjusted p o).2.2)⟩] := by
  have h := mockAdjusted_total_pos p o
  unfold getEnhancedMockSentiment
  dsimp only
  rw [if_neg (by exact ne_of_gt h)]

/-- The shape every claim about `CombinedDistribution` asserts: exactly
3 entries, one per canonical label, sorted descending, scores
non-negative.  (Stated from the spec, to be compared with what the
embedded code returns.) -/
def validDistribution (out : List ApiResponse) : Prop :=
  out.length = 3 ∧
  List.Perm (out.map ApiResponse.label)
    ["LABEL_0".data, "LABEL_1".data, "LABEL_2".data] ∧
  List.Sorted scoreGe out ∧ ∀ r ∈ out, 0 ≤ r.score

lemma insertionSort_valid (a b c : ApiResponse)
    (hlbl : List.Perm [a.label, b.label, c.label]
      ["LABEL_0".data, "LABEL_1".data, "LABEL_2".data])
    (ha : 0 ≤ a.score) (hb : 0 ≤ b.score) (hc : 0 ≤ c.score) :
    validDistribution (List.insertionSort scoreGe [a, b, c]) := by
  have hperm := List.perm_insertionSort scoreGe [a, b, c]
  refine ⟨?_, ?_, ?_, ?_⟩
  · simpa using hperm.length_eq
  · exact (hperm.map ApiResponse.label).trans hlbl
  · exact List.sorted_insertionSort scoreGe [a, b, c]
  · intro r hr
    have hmem : r ∈ [a, b, c] := (List.mem_insertionSort scoreGe).mp hr
    simp only [List.mem_cons, List.not_mem_nil, or_false] at hmem
    rcases hmem with rfl | rfl | rfl <;> assumption

lemma mock_valid (p o : Str) :
    validDistribution (getEnhancedMockSentiment p o) := by
  have hb := mockAdjusted_bounds p o
  have ht := mockAdjusted_total_pos p o
  rw [mock_eq_normalized]
  refine insertionSort_valid _ _ _ ?_ ?_ ?_ ?_
  · show List.Perm ["LABEL_2".data, "LABEL_0".data, "LABEL_1".data]
      ["LABEL_0".data, "LABEL_1".data, "LABEL_2".data]
    decide
  · exact div_nonneg hb.1 (le_of_lt ht)
  · exact div_nonneg hb.2.1 (le_of_lt ht)
  · exact div_nonneg (le_trans (by norm_num) hb.2.2) (le_of_lt ht)


def mappedScoreSum (lbl : Str) (l : List ApiResponse) : ℚ :=
  ((l.filter (fun r => decide (normalizeLabelToStandard r.label = some lbl))).map
    ApiResponse.score).sum

lemma foldl_addWeighted_eq (w : ℚ) :
    ∀ (l : List ApiResponse) (acc : ℚ × ℚ × ℚ),
      l.foldl (addWeighted w) acc =
        (acc.1 + mappedScoreSum "LABEL_0".data l * w,
         acc.2.1 + mappedScoreSum "LABEL_1".data l * w,
         acc.2.2 + mappedScoreSum "LABEL_2".data l * w)
  | [], acc => by
    simp [mappedScoreSum]
  | r :: l, acc => by
    rw [List.foldl_cons, foldl_addWeighted_eq w l]
    have expand : ∀ lbl : Str, mappedScoreSum lbl (r :: l) =
        (if normalizeLabelToStandard r.label = some lbl then r.score else 0) +
          mappedScoreSum lbl l := by
      intro lbl
      by_cases h : normalizeLabelToStandard r.label = some lbl <;>
        simp [mappedScoreSum, List.filter_cons, h]
    rw [expand, expand, expand]
    unfold addWeighted
    rcases hn : normalizeLabelToStandard r.label with _ | lbl
    · simp only [Prod.mk.injEq, reduceCtorEq, if_false]
      refine ⟨by ring, by ring, by ring⟩
    · have h01 : ("LABEL_0".data : Str) ≠ "LABEL_1".data := by decide
      have h02 : ("LABEL_0".data : Str) ≠ "LABEL_2".data := by decide
      have h10 : ("LABEL_1".data : Str) ≠ "LABEL_0".data := by decide
      have h12 : ("LABEL_1".data : Str) ≠ "LABEL_2".data := by decide
      have h20 : ("LABEL_2".data : Str) ≠ "LABEL_0".data := by decide
      have h21 : ("LABEL_2".data : Str) ≠ "LABEL_1".data := by decide
      by_cases h0 : lbl = "LABEL_0".data
      · subst h0
        simp only [Option.some.injEq, Prod.mk.injEq, eq_self_iff_true,
          if_true, h01, h02, if_false]
        refine ⟨by ring, by ring, by ring⟩
      · by_cases h1 : lbl = "LABEL_1".data
        · subst h1
          simp only [Option.some.injEq, Prod.mk.injEq, eq_self_iff_true,
            if_true, h10, h12, if_false]
          refine ⟨by ring, by ring, by ring⟩
        · by_cases h2 : lbl = "LABEL_2".data
          · subst h2
            simp only [Option.some.injEq, Prod.mk.injEq, eq_self_iff_true,
              if_true, h20, h21, if_false]
            refine ⟨by ring, by ring, by ring⟩
          · simp only [Option.some.injEq, Prod.mk.injEq, h0, h1, h2,
              if_false]
            refine ⟨by ring, by ring, by ring⟩

lemma mappedScoreSum_nonneg (lbl : Str) (l : List ApiResponse)
    (h : ∀ r ∈ l, 0 ≤ r.score) : 0 ≤ mappedScoreSum lbl l := by
  unfold mappedScoreSum
  apply List.sum_nonneg
  intro x hx
  rcases List.mem_map.mp hx with ⟨r, hr, rfl⟩
  exact h r (List.mem_of_mem_filter hr)

lemma combineEnsembleResults_eq (p s : List ApiResponse) :
    combineEnsembleResults p s =
      List.insertionSort scoreGe
        [⟨"LABEL_0".data,
           mappedScoreSum "LABEL_0".data p * (7/10) +
             mappedScoreSum "LABEL_0".data s * (3/10)⟩,
         ⟨"LABEL_1".data,
           mappedScoreSum "LABEL_1".data p * (7/10) +
             mappedScoreSum "LABEL_1".data s * (3/10)⟩,
         ⟨"LABEL_2".data,
           mappedScoreSum "LABEL_2".data p * (7/10) +
             mappedScoreSum "LABEL_2".data s * (3/10)⟩] := by
  unfold combineEnsembleResults
  dsimp only
  rw [foldl_addWeighted_eq, foldl_addWeighted_eq]
  norm_num

lemma combine_valid (p s : List ApiResponse)
    (hp : ∀ r ∈ p, 0 ≤ r.score) (hs : ∀ r ∈ s, 0 ≤ r.score) :
    validDistribution (combineEnsembleResults p s) := by
  rw [combineEnsembleResults_eq]
  refine insertionSort_valid _ _ _ ?_ ?_ ?_ ?_
  · show List.Perm ["LABEL_0".data, "LABEL_1".data, "LABEL_2".data]
      ["LABEL_0".data, "LABEL_1".data, "LABEL_2".data]
    exact List.Perm.refl _
  all_goals
    exact add_nonneg
      (mul_nonneg (mappedScoreSum_nonneg _ _ hp) (by norm_num))
      (mul_nonneg (mappedScoreSum_nonneg _ _ hs) (by norm_num))

lemma analyzeBatchGo_eq_map (f : Str → List ApiResponse) :
    ∀ (fuel : Nat) (l : List Str), l.length ≤ fuel →
      analyzeBatchGo f fuel l = l.map f
  | 0, l, h => by
    have : l = [] := List.eq_nil_of_length_eq_zero (Nat.le_zero.mp h)
    subst this
    rfl
  | fuel + 1, [], _ => rfl
  | fuel + 1, a :: t, h => by
    have hlen : (List.drop 3 (a :: t)).length ≤ fuel := by
      simp only [List.length_drop, List.length_cons] at *
      omega
    rw [analyzeBatchGo, analyzeBatchGo_eq_map f fuel _ hlen,
      ← List.map_append, List.take_append_drop]

lemma analyzeBatch_eq_map (f : Str → List ApiResponse) (texts : List Str) :
    analyzeBatch f texts = texts.map f :=
  analyzeBatchGo_eq_map f texts.length texts le_rfl

lemma dedupFirstGo_subset :
    ∀ (fuel : Nat) (l : List Str), dedupFirstGo fuel l ⊆ l
  | 0, _ => by intro x hx; cases hx
  | _ + 1, [] => by intro x hx; cases hx
  | fuel + 1, w :: ws => by
    intro x hx
    rcases hx with _ | hx
    · exact List.mem_cons_self w ws
    · rename_i hx
      exact List.mem_cons_of_mem w
        (List.mem_of_mem_filter (dedupFirstGo_subset fuel _ hx))

lemma dedupFirst_subset (l : List Str) : dedupFirst l ⊆ l :=
  dedupFirstGo_subset l.length l

/-! The claims. -/

/-- Claim C1: the spec says that for "This is not good" the positive
match on "good" feeds positiveScore, a negation sentinel is detected,
the swap applies, and negativeScore ends strictly above positiveScore.
The embedded code contradicts the last three parts: the normalizer does
produce "This is NOT_good" and "good" does contribute 0.4 to
positiveScore, but `hasNegation` tests the upper-case sentinel against
the lower-cased processed text, so it is `false`, no swap happens, and
the final distribution ranks positive (4/7) above negative (0). -/
theorem c1_negation_swap_never_applied :
    preprocessText "This is not good".data = "This is NOT_good".data ∧
    (extractTextFeatures (preprocessText "This is not good".data)
      "This is not good".data).positiveScore = 2/5 ∧
    (extractTextFeatures (preprocessText "This is not good".data)
      "This is not good".data).hasNegation = false ∧
    analyzeSentimentModel true dummyToken [] [] "This is not good".data =
      [⟨"LABEL_2".data, 4/7⟩, ⟨"LABEL_1".data, 3/7⟩,
       ⟨"LABEL_0".data, 0⟩] := by
  decide

/-- Claim C2, counterexample: on the zero-signal input "The meeting is
at 3pm" the local estimator returns [(neutral, 1), (positive, 0),
(negative, 0)], not the fixed default distribution [(neutral, 0.6),
(positive, 0.25), (negative, 0.15)] the claim states. -/
theorem c2_zero_signal_counterexample :
    getEnhancedMockSentiment (preprocessText "The meeting is at 3pm".data)
      "The meeting is at 3pm".data =
      [⟨"LABEL_1".data, 1⟩, ⟨"LABEL_2".data, 0⟩, ⟨"LABEL_0".data, 0⟩] ∧
    getEnhancedMockSentiment (preprocessText "The meeting is at 3pm".data)
      "The meeting is at 3pm".data ≠
      [⟨"LABEL_1".data, 6/10⟩, ⟨"LABEL_2".data, 25/100⟩,
       ⟨"LABEL_0".data, 15/100⟩] := by
  decide

/-- Claim C2, amended: every zero-signal input (features positive 0,
negative 0, neutral at the 0.3 base, no flags) yields exactly
[(neutral, 1), (positive, 0), (negative, 0)]; the default-distribution
branch of the code is not reached because the score total is 0.3, not
zero. -/
theorem c2_zero_signal_returns_neutral_one (p o : Str)
    (h : extractTextFeatures p o =
      ⟨0, 0, 3/10, false, false, false⟩) :
    getEnhancedMockSentiment p o =
      [⟨"LABEL_1".data, 1⟩, ⟨"LABEL_2".data, 0⟩, ⟨"LABEL_0".data, 0⟩] := by
  simp only [getEnhancedMockSentiment, mockAdjusted, h]
  decide

theorem c2_zero_signal_returns_neutral_one_witness :
    extractTextFeatures (preprocessText "The meeting is at 3pm".data)
      "The meeting is at 3pm".data = ⟨0, 0, 3/10, false, false, false⟩ ∧
    getEnhancedMockSentiment (preprocessText "The meeting is at 3pm".data)
      "The meeting is at 3pm".data =
      [⟨"LABEL_1".data, 1⟩, ⟨"LABEL_2".data, 0⟩, ⟨"LABEL_0".data, 0⟩] :=
  ⟨by decide, c2_zero_signal_returns_neutral_one _ _ (by decide)⟩

/-- Claim C3, counterexample: when only the secondary remote classifier
succeeds, `analyzeSentiment` passes its re-mapped outcome through, and
a one-entry outcome [("5 stars", 0.8)] yields a one-entry result, not a
3-entry distribution. -/
theorem c3_passthrough_counterexample :
    analyzeSentimentModel true "tok".data []
      [⟨"5 stars".data, 8/10⟩] "x".data =
      [⟨"LABEL_2".data, 8/10⟩] ∧
    (analyzeSentimentModel true "tok".data []
      [⟨"5 stars".data, 8/10⟩] "x".data).length ≠ 3 := by
  decide

/-- Claim C3, amended: for every input text, whenever both remote
outcomes are non-empty (with non-negative scores) or both are empty,
`analyzeSentiment` returns exactly 3 entries, one per canonical label,
sorted descending by score, all non-negative.  In the single-success
pass-through paths the remote outcome itself is returned (primary
as-is, secondary re-mapped and filtered) and its length is whatever the
remote classifier sent. -/
theorem c3_valid_for_ensemble_and_fallback (tok : Str)
    (p s : List ApiResponse) (text : Str)
    (hp : ∀ r ∈ p, 0 ≤ r.score) (hs : ∀ r ∈ s, 0 ≤ r.score)
    (h : (p ≠ [] ∧ s ≠ []) ∨ (p = [] ∧ s = [])) :
    validDistribution (analyzeSentimentModel true tok p s text) := by
  unfold analyzeSentimentModel
  dsimp only
  by_cases htok : (tok.isEmpty || tok == dummyToken) = true
  · simp only [htok, if_true]
    exact mock_valid _ _
  · simp only [htok, if_false, Bool.false_eq_true]
    rcases h with ⟨hp1, hs1⟩ | ⟨rfl, rfl⟩
    · rw [if_pos trivial, if_pos ⟨hp1, hs1⟩]
      exact combine_valid p s hp hs
    · rw [if_pos trivial, if_neg (by simp), if_neg (by simp),
        if_neg (by simp)]
      exact mock_valid _ _

theorem c3_valid_for_ensemble_and_fallback_witness :
    validDistribution (analyzeSentimentModel true "tok".data
      [⟨"positive".data, 9/10⟩] [⟨"5 stars".data, 8/10⟩] "x".data) :=
  c3_valid_for_ensemble_and_fallback "tok".data _ _ "x".data
    (by decide) (by decide) (Or.inl (by decide))

/-- Concrete counterexample input for C4 ("don't like", with the
apostrophe spelled via `apos`). -/
def dontLikeText : Str := ['d', 'o', 'n', apos, 't', ' ', 'l', 'i', 'k', 'e']

/-- Claim C4, counterexample: the normalizer is not idempotent.  On
"don't like" the first pass expands the contraction after the negation
pass has already run, producing "do not like"; a second pass then
rewrites the fresh "not " into a sentinel, giving "do NOT_like". -/
theorem c4_not_idempotent :
    preprocessText dontLikeText = "do not like".data ∧
    preprocessText (preprocessText dontLikeText) = "do NOT_like".data ∧
    preprocessText (preprocessText dontLikeText) ≠
      preprocessText dontLikeText := by
  decide

/-- Claim C4, amended: the normalizer is not idempotent in general, but
sentinel output itself is never double-replaced: "not happy" normalizes
to "NOT_happy", which is a fixed point, and no "NOT_NOT_" marker ever
appears after a second pass. -/
theorem c4_sentinels_not_double_replaced :
    preprocessText "not happy".data = "NOT_happy".data ∧
    preprocessText "NOT_happy".data = "NOT_happy".data ∧
    containsSub "NOT_NOT_".data
      (preprocessText (preprocessText "not happy".data)) = false := by
  decide

/-- Claim C5: ensemble fusion on primary = [(positive, 0.9),
(neutral, 0.05), (negative, 0.05)] and secondary = [(5 stars, 0.8)]
gives the positive label 0.9 × 0.7 + 0.8 × 0.3 = 0.87, ranked first;
and in general each canonical label accumulates
primary × 0.7 + secondary × 0.3 over the entries that map to it,
unmapped labels being dropped. -/
theorem c5_ensemble_fusion :
    (combineEnsembleResults
      [⟨"positive".data, 9/10⟩, ⟨"neutral".data, 5/100⟩,
       ⟨"negative".data, 5/100⟩]
      [⟨"5 stars".data, 8/10⟩] =
      [⟨"LABEL_2".data, 87/100⟩, ⟨"LABEL_0".data, 7/200⟩,
       ⟨"LABEL_1".data, 7/200⟩]) ∧
    ((9:ℚ)/10 * (7/10) + 8/10 * (3/10) = 87/100) ∧
    ∀ p s : List ApiResponse,
      combineEnsembleResults p s =
        List.insertionSort scoreGe
          [⟨"LABEL_0".data,
             mappedScoreSum "LABEL_0".data p * (7/10) +
               mappedScoreSum "LABEL_0".data s * (3/10)⟩,
           ⟨"LABEL_1".data,
             mappedScoreSum "LABEL_1".data p * (7/10) +
               mappedScoreSum "LABEL_1".data s * (3/10)⟩,
           ⟨"LABEL_2".data,
             mappedScoreSum "LABEL_2".data p * (7/10) +
               mappedScoreSum "LABEL_2".data s * (3/10)⟩] :=
  ⟨by decide, by norm_num, combineEnsembleResults_eq⟩

/-- Claim C6: for every input text and every sentiment label, the
keyword list has at most 6 entries, contains no token with an
underscore, and contains no stop word. -/
theorem c6_keywords_bounded (text sentiment : Str) :
    (extractKeywords text sentiment).length ≤ 6 ∧
    ∀ w ∈ extractKeywords text sentiment,
      containsSub "_".data w = false ∧ stopWords.contains w = false := by
  constructor
  · unfold extractKeywords
    dsimp only
    refine le_trans (List.length_filter_le _ _) ?_
    rw [List.length_map]
    exact List.length_take_le _ _
  · intro w hw
    unfold extractKeywords at hw
    dsimp only at hw
    obtain ⟨hw1, hpred⟩ := List.mem_filter.mp hw
    have hU : containsSub "_".data w = false := by
      simpa using hpred
    refine ⟨hU, ?_⟩
    rcases List.mem_map.mp hw1 with ⟨pr, hprmem, rfl⟩
    have h2 : pr ∈ (dedupFirst (relevantWords text sentiment)).map
        (fun kw => (kw, keywordScore sentiment (keywordTokens text) kw)) :=
      (List.mem_insertionSort _).mp (List.mem_of_mem_take hprmem)
    rcases List.mem_map.mp h2 with ⟨k, hk, hpr⟩
    have hfst : pr.1 = k := by rw [← hpr]
    rw [hfst]
    have hrel : k ∈ relevantWords text sentiment := dedupFirst_subset _ hk
    obtain ⟨-, hpred2⟩ := List.mem_filter.mp hrel
    cases hsw : stopWords.contains k with
    | false => rfl
    | true =>
      rw [isRelevantWord, if_pos hsw] at hpred2
      cases hpred2

theorem c6_keywords_bounded_witness :
    ("wonderful".data ∈ extractKeywords "wonderful gadget".data
      "positive".data) ∧
    containsSub "_".data "wonderful".data = false ∧
    stopWords.contains "wonderful".data = false :=
  ⟨by decide, (c6_keywords_bounded "wonderful gadget".data
    "positive".data).2 "wonderful".data (by decide)⟩

/-- Claim C7: `analyzeSentiment` never hard-fails.  With no credential
configured (empty or dummy token), or with both remote outcomes empty,
it returns exactly the local estimator's output, which always has 3
entries — never an empty or undefined result. -/
theorem c7_fallback_to_local (tok : Str) (p s : List ApiResponse)
    (text : Str)
    (h : tok = [] ∨ tok = dummyToken ∨ (p = [] ∧ s = [])) :
    analyzeSentimentModel true tok p s text =
      getEnhancedMockSentiment (preprocessText text) text ∧
    (analyzeSentimentModel true tok p s text).length = 3 := by
  suffices heq : analyzeSentimentModel true tok p s text =
      getEnhancedMockSentiment (preprocessText text) text by
    exact ⟨heq, heq ▸ (mock_valid (preprocessText text) text).1⟩
  unfold analyzeSentimentModel
  dsimp only
  rcases h with rfl | rfl | ⟨rfl, rfl⟩
  · rfl
  · rfl
  · by_cases htok : (tok.isEmpty || tok == dummyToken) = true
    · simp only [htok, if_true]
    · simp only [htok, if_false, Bool.false_eq_true]
      rw [if_pos trivial, if_neg (by simp), if_neg (by simp),
        if_neg (by simp)]

theorem c7_fallback_to_local_witness :
    analyzeSentimentModel true dummyToken [⟨"positive".data, 1⟩] []
      "ok".data =
      getEnhancedMockSentiment (preprocessText "ok".data) "ok".data ∧
    (analyzeSentimentModel true dummyToken [⟨"positive".data, 1⟩] []
      "ok".data).length = 3 :=
  c7_fallback_to_local dummyToken [⟨"positive".data, 1⟩] [] "ok".data
    (Or.inr (Or.inl rfl))

/-- Claim C8: batch analysis of N texts returns exactly N results, the
i-th being the analysis of the i-th input text, for any assignment of
remote outcomes per text. -/
theorem c8_batch_preserves_order (tok : Str)
    (pOut sOut : Str → List ApiResponse) (texts : List Str) :
    analyzeBatch
      (fun t => analyzeSentimentModel true tok (pOut t) (sOut t) t)
      texts =
      texts.map
        (fun t => analyzeSentimentModel true tok (pOut t) (sOut t) t) ∧
    (analyzeBatch
      (fun t => analyzeSentimentModel true tok (pOut t) (sOut t) t)
      texts).length = texts.length ∧
    ∀ i : Nat,
      (analyzeBatch
        (fun t => analyzeSentimentModel true tok (pOut t) (sOut t) t)
        texts)[i]? =
        (texts[i]?).map
          (fun t => analyzeSentimentModel true tok (pOut t) (sOut t) t) := by
  have h := analyzeBatch_eq_map
    (fun t => analyzeSentimentModel true tok (pOut t) (sOut t) t) texts
  refine ⟨h, by rw [h, List.length_map], ?_⟩
  intro i
  rw [h, List.getElem?_map]

/-- Claim C9: for every input, the adjusted score total of the local
estimator is at least the 0.3 base neutral score, hence strictly
positive; the zero-total default branch is therefore never taken (the
estimator always returns the sort of the normalized entries), and the
three returned scores sum to exactly 1. -/
theorem c9_total_positive_and_normalized (p o : Str) :
    3/10 ≤ (mockAdjusted p o).1 + (mockAdjusted p o).2.1 +
      (mockAdjusted p o).2.2 ∧
    getEnhancedMockSentiment p o =
      List.insertionSort scoreGe
        [⟨"LABEL_2".data, (mockAdjusted p o).1 /
            ((mockAdjusted p o).1 + (mockAdjusted p o).2.1 +
              (mockAdjusted p o).2.2)⟩,
         ⟨"LABEL_0".data, (mockAdjusted p o).2.1 /
            ((mockAdjusted p o).1 + (mockAdjusted p o).2.1 +
              (mockAdjusted p o).2.2)⟩,
         ⟨"LABEL_1".data, (mockAdjusted p o).2.2 /
            ((mockAdjusted p o).1 + (mockAdjusted p o).2.1 +
              (mockAdjusted p o).2.2)⟩] ∧
    ((getEnhancedMockSentiment p o).map ApiResponse.score).sum = 1 := by
  have hb := mockAdjusted_bounds p o
  have ht := mockAdjusted_total_pos p o
  refine ⟨by linarith [hb.1, hb.2.1, hb.2.2], mock_eq_normalized p o, ?_⟩
  rw [mock_eq_normalized]
  rw [List.Perm.sum_eq ((List.perm_insertionSort scoreGe _).map
    ApiResponse.score)]
  simp only [List.map_cons, List.map_nil, List.sum_cons, List.sum_nil]
  have hT : (mockAdjusted p o).1 + (mockAdjusted p o).2.1 +
      (mockAdjusted p o).2.2 ≠ 0 := ne_of_gt ht
  field_simp
  ring

/-- Concrete input for C10: the sentinel-bearing token
"not_wonderful" is admitted by the length rule and out-scores the seven
ordinary tokens, so it occupies a top-6 slot and is then purged. -/
def c10Text : Str :=
  "not wonderful stuff thing items object widget gadget device".data

/-- Claim C10: the underscore filter runs after the top-6 truncation,
so `extractKeywords` can return fewer than 6 keywords although more
than 6 distinct eligible underscore-free non-stop-word tokens exist:
on `c10Text` there are 7 such tokens, but "not_wonderful" takes a
top-6 slot and is filtered afterwards, leaving only 5 keywords. -/
theorem c10_truncation_before_underscore_filter :
    extractKeywords c10Text "positive".data =
      ["object", "widget", "gadget", "device", "stuff"].map String.data ∧
    (extractKeywords c10Text "positive".data).length = 5 ∧
    ((dedupFirst (relevantWords c10Text "positive".data)).filter
      (fun w => !containsSub "_".data w)).length = 7 ∧
    "not_wonderful".data ∈
      ((List.insertionSort kwScoreGe
        ((dedupFirst (relevantWords c10Text "positive".data)).map
          (fun kw =>
            (kw, keywordScore "positive".data (keywordTokens c10Text)
              kw)))).take 6).map Prod.fst := by
  decide
